import Mathlib

/-!
Verification development for the MVE nearest-neighbor matcher
(`src/libs/sfm/nearest_neighbor.cc`) and the dmrecon batch scheduler
(`src/apps/dmrecon/dmrecon.cc`).

The matcher's machine `int` arithmetic is embedded as `ℤ` (the intended
descriptor domain keeps all inner products far inside 32-bit range); the
16-bit wraparound of the SSE path's `_mm_mullo_epi16` / `_mm_add_epi16`
lanes is embedded explicitly with `wrap16`.  IEEE `float` arithmetic of the
`NearestNeighbor<float>` specialization is embedded as exact rational
arithmetic over `ℚ`.
-/

/-- Match result record.  Modelled from the spec: the declaring header
`sfm/nearest_neighbor.h` is not part of the sources; the spec's data model
gives `MatchResult = {index_1st_best, index_2nd_best, dist_1st_best,
dist_2nd_best}` with indices and one distance field per rank, so the
distance fields are carried at the scan's value type. -/
structure NNResult (α : Type) where
  index_1st_best : ℕ
  index_2nd_best : ℕ
  dist_1st_best : α
  dist_2nd_best : α
deriving DecidableEq

/-- Inner product of a query with a stored descriptor: the inner loops
`inner_product += query[i] * *descr_ptr` of both scalar paths. -/
def nnDot {α : Type} [Mul α] [AddCommMonoid α] (q c : List α) : α :=
  (List.zipWith (fun a b => a * b) q c).sum

/-- The top-2 update executed once per stored descriptor: the
`if (inner_product > result->dist_2nd_best) { ... }` block shared verbatim
by both template specializations and both execution paths. -/
def nnUpdate {α : Type} [LinearOrder α] (r : NNResult α) (i : ℕ) (ip : α) :
    NNResult α :=
  if r.dist_2nd_best < ip then
    if r.dist_1st_best < ip then
      { index_2nd_best := r.index_1st_best
        dist_2nd_best := r.dist_1st_best
        index_1st_best := i
        dist_1st_best := ip }
    else
      { r with index_2nd_best := i, dist_2nd_best := ip }
  else r

/-- The linear scan `for (i = 0; i < num_elements; ++i)` over the stored
descriptors, keeping the loop counter explicit; `score c` is the inner
product of the query with descriptor `c`. -/
def nnScanFrom {α : Type} [LinearOrder α] (score : List α → α) :
    NNResult α → ℕ → List (List α) → NNResult α
  | r, _, [] => r
  | r, i, c :: cs => nnScanFrom score (nnUpdate r i (score c)) (i + 1) cs

/-- Initial accumulator: distances set to the sentinel
`-std::numeric_limits<T>::max()`, both indices `0`. -/
def nnInit {α : Type} (sentinel : α) : NNResult α :=
  { index_1st_best := 0, index_2nd_best := 0
    dist_1st_best := sentinel, dist_2nd_best := sentinel }

/-- The scan sentinel `-std::numeric_limits<short>::max()`. -/
def shortSentinel : ℤ := -32767

/-- The value `std::numeric_limits<float>::max() = 2^128 - 2^104`, as an
exact rational. -/
def floatMax : ℚ := 2 ^ 128 - 2 ^ 104

/-- Finalization of `NearestNeighbor<short>::find`: clamp each stored inner
product into `[0, 16129]`, then map it to `32258 - 2 * value`. -/
def finalizeShort (r : NNResult ℤ) : NNResult ℤ :=
  { r with
    dist_1st_best := 32258 - 2 * (min 16129 (max 0 r.dist_1st_best))
    dist_2nd_best := 32258 - 2 * (min 16129 (max 0 r.dist_2nd_best)) }

/-- Finalization of `NearestNeighbor<float>::find`:
`min(1, max(0, 2 - 2 * value))` on each stored inner product. -/
def finalizeFloat (r : NNResult ℚ) : NNResult ℚ :=
  { r with
    dist_1st_best := min 1 (max 0 (2 - 2 * r.dist_1st_best))
    dist_2nd_best := min 1 (max 0 (2 - 2 * r.dist_2nd_best)) }

/-- The raw scan of `NearestNeighbor<short>::find` (scalar path), before
finalization. -/
def scanShort (query : List ℤ) (elements : List (List ℤ)) : NNResult ℤ :=
  nnScanFrom (fun c => nnDot query c) (nnInit shortSentinel) 0 elements

/-- The matcher `NearestNeighbor<short>::find`, scalar path. -/
def findShort (query : List ℤ) (elements : List (List ℤ)) : NNResult ℤ :=
  finalizeShort (scanShort query elements)

/-- The raw scan of `NearestNeighbor<float>::find` (scalar path), before
finalization. -/
def scanFloat (query : List ℚ) (elements : List (List ℚ)) : NNResult ℚ :=
  nnScanFrom (fun c => nnDot query c) (nnInit (-floatMax)) 0 elements

/-- The matcher `NearestNeighbor<float>::find`, scalar path. -/
def findFloat (query : List ℚ) (elements : List (List ℚ)) : NNResult ℚ :=
  finalizeFloat (scanFloat query elements)

/-- Signed 16-bit wraparound: the value a 16-bit lane holds after storing
`z`, i.e. the representative of `z mod 2^16` in `[-32768, 32767]`. -/
def wrap16 (z : ℤ) : ℤ := (z + 32768) % 65536 - 32768

/-- The SSE2 inner-product loop over 8-element chunks, carrying the 8
packed 16-bit lanes `a0 ... a7` of the `__m128i` accumulator: each chunk
performs `reg_result = _mm_add_epi16(reg_result, _mm_mullo_epi16(query,
subject))`, both the multiply and the add wrapping in each 16-bit lane.
The loop runs `dimensions / 8` times, so a trailing chunk shorter than 8
is not read; when it ends, the 8 lanes are read back as `short`s and
summed in `int`: `tmp[0] + tmp[1] + ... + tmp[7]`. -/
def sseDotGo : List ℤ → List ℤ → ℤ → ℤ → ℤ → ℤ → ℤ → ℤ → ℤ → ℤ → ℤ
  | q0 :: q1 :: q2 :: q3 :: q4 :: q5 :: q6 :: q7 :: qt,
    c0 :: c1 :: c2 :: c3 :: c4 :: c5 :: c6 :: c7 :: ct,
    a0, a1, a2, a3, a4, a5, a6, a7 =>
      sseDotGo qt ct
        (wrap16 (a0 + wrap16 (q0 * c0))) (wrap16 (a1 + wrap16 (q1 * c1)))
        (wrap16 (a2 + wrap16 (q2 * c2))) (wrap16 (a3 + wrap16 (q3 * c3)))
        (wrap16 (a4 + wrap16 (q4 * c4))) (wrap16 (a5 + wrap16 (q5 * c5)))
        (wrap16 (a6 + wrap16 (q6 * c6))) (wrap16 (a7 + wrap16 (q7 * c7)))
  | _, _, a0, a1, a2, a3, a4, a5, a6, a7 =>
      a0 + a1 + a2 + a3 + a4 + a5 + a6 + a7

/-- The SSE2 inner product of `NearestNeighbor<short>::find`: lanes start
at `_mm_set1_epi16(0)`. -/
def sseDotShort (q c : List ℤ) : ℤ :=
  sseDotGo q c 0 0 0 0 0 0 0 0

/-- The matcher `NearestNeighbor<short>::find`, SSE2 path. -/
def findShortSSE (query : List ℤ) (elements : List (List ℤ)) : NNResult ℤ :=
  finalizeShort
    (nnScanFrom (fun c => sseDotShort query c) (nnInit shortSentinel) 0
      elements)

/-- The SSE3 inner-product loop over 4-element chunks, carrying the 4
packed single-precision lanes `b0 ... b3` of the `__m128` accumulator:
each chunk performs `sum = _mm_add_ps(sum, _mm_mul_ps(q, c))`, embedded
exactly over `ℚ`; the loop runs `dimensions / 4` times, and when it ends
two `_mm_hadd_ps` steps reduce the lanes to `(b0 + b1) + (b2 + b3)` in
lane 0, read off by `_mm_cvtss_f32`. -/
def sseDotGoF : List ℚ → List ℚ → ℚ → ℚ → ℚ → ℚ → ℚ
  | q0 :: q1 :: q2 :: q3 :: qt, c0 :: c1 :: c2 :: c3 :: ct,
    b0, b1, b2, b3 =>
      sseDotGoF qt ct (b0 + q0 * c0) (b1 + q1 * c1) (b2 + q2 * c2)
        (b3 + q3 * c3)
  | _, _, b0, b1, b2, b3 => (b0 + b1) + (b2 + b3)

/-- The SSE3 inner product of `NearestNeighbor<float>::find`: lanes start
at `_mm_setzero_ps()`. -/
def sseDotFloat (q c : List ℚ) : ℚ :=
  sseDotGoF q c 0 0 0 0

/-- The matcher `NearestNeighbor<float>::find`, SSE3 path. -/
def findFloatSSE (query : List ℚ) (elements : List (List ℚ)) : NNResult ℚ :=
  finalizeFloat
    (nnScanFrom (fun c => sseDotFloat query c) (nnInit (-floatMax)) 0
      elements)

/-!  The dmrecon scheduler (`src/apps/dmrecon/dmrecon.cc`). -/

/-- The function `get_scale_from_max_pixels`, the arithmetic core for a view whose image
proxy has the given `width` and `height` (the two early `NULL` guards both
return `0` and are not modelled).  The `float` computation
`std::ceil(std::log(ratio) / std::log(4.0f))` is embedded as exact real
arithmetic, and the final `std::max(0, (int)scale)` as `max 0 ⌈·⌉` (the
cast truncates an integral, here non-negative, value exactly). -/
noncomputable def get_scale_from_max_pixels
    (width height max_pixels : ℕ) : ℤ :=
  if width * height ≤ max_pixels then 0
  else max 0 ⌈Real.log ((width * height : ℝ) / (max_pixels : ℝ)) /
    Real.log 4⌉

/-- A view of the catalog.  Modelled from the spec: class `mve::View` is
not under the sources; the spec's view-catalog interface exposes a
camera-pose validity check and an embedding existence check by string
name. -/
structure MView where
  camera_valid : Bool
  embeddings : List String
deriving DecidableEq

/-- The check `view->has_embedding(name)`.  Modelled from the spec: embedding
existence check by string name. -/
def viewHasEmbedding (v : MView) (name : String) : Bool :=
  v.embeddings.contains name

/-- The target embedding name
`"depth-L" + util::string::get(settings.scale)`. -/
def embeddingName (scale : ℤ) : String := "depth-L" ++ toString scale

/-- The decision, for one view id of the batch loop, whether the external
reconstructor is invoked: `false` mirrors the three `continue` statements
(id out of range, `NULL` view or invalid camera, embedding present with the
force flag unset). -/
def jobRuns (views : List (Option MView)) (force : Bool) (scale : ℤ)
    (id : ℕ) : Bool :=
  match views[id]? with
  | none => false
  | some none => false
  | some (some v) =>
    if v.camera_valid = false then false
    else if force = false && viewHasEmbedding v (embeddingName scale) then
      false
    else true

/-- Terminal per-view outcomes of the batch loop. -/
inductive Outcome where
  | skipped : Outcome
  | done : Outcome
  | failed : Outcome
deriving DecidableEq

/-- One iteration of the batch loop body: skips per `jobRuns`, otherwise
invokes the external reconstruction (`reconstruct` + `save_mve_file`,
abstracted as `recon`) inside the `try`/`catch` that turns an exception
into a logged failure. -/
def runJob (views : List (Option MView)) (force : Bool) (scale : ℤ)
    (recon : ℕ → Except String Unit) (id : ℕ) : Outcome :=
  if jobRuns views force scale id then
    match recon id with
    | Except.ok _ => Outcome.done
    | Except.error _ => Outcome.failed
  else Outcome.skipped

/-- The batch-mode `#pragma omp parallel for` loop: each listed view id is
processed independently; completion order is unspecified, outcomes are
per-id deterministic, so the run is recorded positionally. -/
def batchRun (views : List (Option MView)) (force : Bool) (scale : ℤ)
    (recon : ℕ → Except String Unit) (jobs : List ℕ) : List Outcome :=
  jobs.map (runJob views force scale recon)

/-- Single-master mode: `reconstruct` under a `try`/`catch` whose handler
`return 1`s; the successful path falls through to `return 0`.  Only the
exit status is modelled. -/
def masterRun (recon : ℕ → Except String Unit) (id : ℕ) : ℕ :=
  match recon id with
  | Except.ok _ => 0
  | Except.error _ => 1

/-- Fault injection for the isolation property: the external reconstructor
`recon` altered to raise `e` at view `j`. -/
def failAt (recon : ℕ → Except String Unit) (j : ℕ) (e : String) :
    ℕ → Except String Unit :=
  fun id => if id = j then Except.error e else recon id

/-!  Generic facts about the top-2 update and the scan loop. -/

section ScanLemmas

variable {α : Type} [LinearOrder α]

theorem nnUpdate_of_le {r : NNResult α} {i : ℕ} {ip : α}
    (h : ip ≤ r.dist_2nd_best) : nnUpdate r i ip = r := by
  unfold nnUpdate
  rw [if_neg (not_lt.mpr h)]

theorem nnUpdate_d2_le_d1 (r : NNResult α) (i : ℕ) (ip : α)
    (h : r.dist_2nd_best ≤ r.dist_1st_best) :
    (nnUpdate r i ip).dist_2nd_best ≤ (nnUpdate r i ip).dist_1st_best := by
  unfold nnUpdate
  split_ifs with h1 h2
  · exact le_of_lt h2
  · exact not_lt.mp h2
  · exact h

theorem nnScanFrom_d2_le_d1 (score : List α → α) (cs : List (List α)) :
    ∀ (r : NNResult α) (i : ℕ), r.dist_2nd_best ≤ r.dist_1st_best →
      (nnScanFrom score r i cs).dist_2nd_best ≤
        (nnScanFrom score r i cs).dist_1st_best := by
  induction cs with
  | nil => exact fun r i h => h
  | cons c cs ih =>
    intro r i h
    simp only [nnScanFrom]
    exact ih _ _ (nnUpdate_d2_le_d1 r i (score c) h)

theorem nnScanFrom_of_all_le (score : List α → α) (s : α)
    (cs : List (List α)) (h : ∀ c ∈ cs, score c ≤ s) :
    ∀ (r : NNResult α) (i : ℕ), r.dist_2nd_best = s →
      nnScanFrom score r i cs = r := by
  induction cs with
  | nil => intro r i _; rfl
  | cons c cs ih =>
    intro r i hr
    have hc : score c ≤ r.dist_2nd_best := by
      rw [hr]; exact h c (by simp)
    simp only [nnScanFrom, nnUpdate_of_le hc]
    exact ih (fun c' hc' => h c' (by simp [hc'])) r (i + 1) hr

theorem nnScanFrom_distinct (score : List α → α) (cs : List (List α)) :
    ∀ (r : NNResult α) (i : ℕ),
      r.index_1st_best ≠ r.index_2nd_best →
      r.index_1st_best < i → r.index_2nd_best < i →
      (nnScanFrom score r i cs).index_1st_best ≠
        (nnScanFrom score r i cs).index_2nd_best := by
  induction cs with
  | nil => exact fun r i h _ _ => h
  | cons c cs ih =>
    intro r i hne h1 h2
    simp only [nnScanFrom]
    unfold nnUpdate
    split_ifs with hb1 hb2
    · exact ih _ _ (ne_of_gt h1) (Nat.lt_succ_self i) (Nat.lt_succ_of_lt h1)
    · exact ih _ _ (ne_of_lt h1) (Nat.lt_succ_of_lt h1) (Nat.lt_succ_self i)
    · exact ih _ _ hne (Nat.lt_succ_of_lt h1) (Nat.lt_succ_of_lt h2)

theorem nnScanFrom_distinct_of_hit (score : List α → α) (s : α)
    (cs : List (List α)) :
    ∀ (r : NNResult α) (i : ℕ),
      r.index_1st_best = 0 → r.index_2nd_best = 0 →
      r.dist_2nd_best = s → s ≤ r.dist_1st_best → 1 ≤ i →
      (∃ c ∈ cs, s < score c) →
      (nnScanFrom score r i cs).index_1st_best ≠
        (nnScanFrom score r i cs).index_2nd_best := by
  induction cs with
  | nil => intro r i _ _ _ _ _ hex; simp at hex
  | cons c cs ih =>
    intro r i h1 h2 hd2 hd1 hi hex
    simp only [nnScanFrom]
    by_cases hc : s < score c
    · unfold nnUpdate
      rw [if_pos (by rw [hd2]; exact hc)]
      split_ifs with hb
      · refine nnScanFrom_distinct score cs _ _ ?_ ?_ ?_
        · show i ≠ r.index_1st_best
          omega
        · show i < i + 1
          omega
        · show r.index_1st_best < i + 1
          omega
      · refine nnScanFrom_distinct score cs _ _ ?_ ?_ ?_
        · show r.index_1st_best ≠ i
          omega
        · show r.index_1st_best < i + 1
          omega
        · show i < i + 1
          omega
    · rw [nnUpdate_of_le (by rw [hd2]; exact not_lt.mp hc)]
      refine ih r (i + 1) h1 h2 hd2 hd1 (by omega) ?_
      obtain ⟨c', hc', hsc⟩ := hex
      rcases List.mem_cons.mp hc' with rfl | hmem
      · exact absurd hsc hc
      · exact ⟨c', hmem, hsc⟩

theorem nnUpdate_init (s ip : α) :
    (nnUpdate (nnInit s) 0 ip).index_1st_best = 0 ∧
    (nnUpdate (nnInit s) 0 ip).index_2nd_best = 0 ∧
    (nnUpdate (nnInit s) 0 ip).dist_2nd_best = s ∧
    s ≤ (nnUpdate (nnInit s) 0 ip).dist_1st_best := by
  unfold nnUpdate nnInit
  split_ifs with h1
  · exact ⟨rfl, rfl, rfl, le_of_lt h1⟩
  · exact ⟨rfl, rfl, rfl, le_rfl⟩

theorem nnScanFrom_init_distinct (score : List α → α) (s : α) (e : List α)
    (rest : List (List α)) (hex : ∃ c ∈ rest, s < score c) :
    (nnScanFrom score (nnInit s) 0 (e :: rest)).index_1st_best ≠
      (nnScanFrom score (nnInit s) 0 (e :: rest)).index_2nd_best := by
  simp only [nnScanFrom]
  obtain ⟨h1, h2, hd2, hd1⟩ := nnUpdate_init s (score e)
  exact nnScanFrom_distinct_of_hit score s rest _ 1 h1 h2 hd2 hd1 le_rfl hex

theorem nnScanFrom_init_saturated (score : List α → α) (s : α) (e : List α)
    (rest : List (List α)) (h : ∀ c ∈ rest, score c ≤ s) :
    (nnScanFrom score (nnInit s) 0 (e :: rest)).index_1st_best = 0 ∧
    (nnScanFrom score (nnInit s) 0 (e :: rest)).index_2nd_best = 0 := by
  obtain ⟨h1, h2, hd2, _⟩ := nnUpdate_init s (score e)
  have heq : nnScanFrom score (nnUpdate (nnInit s) 0 (score e)) (0 + 1)
      rest = nnUpdate (nnInit s) 0 (score e) :=
    nnScanFrom_of_all_le score s rest h (nnUpdate (nnInit s) 0 (score e))
      (0 + 1) hd2
  constructor
  · simp only [nnScanFrom]
    rw [heq]
    exact h1
  · simp only [nnScanFrom]
    rw [heq]
    exact h2

end ScanLemmas

theorem finalizeShort_index (r : NNResult ℤ) :
    (finalizeShort r).index_1st_best = r.index_1st_best ∧
    (finalizeShort r).index_2nd_best = r.index_2nd_best :=
  ⟨rfl, rfl⟩

theorem finalizeShort_d1 (r : NNResult ℤ) :
    (finalizeShort r).dist_1st_best =
      32258 - 2 * min 16129 (max 0 r.dist_1st_best) := rfl

theorem finalizeShort_d2 (r : NNResult ℤ) :
    (finalizeShort r).dist_2nd_best =
      32258 - 2 * min 16129 (max 0 r.dist_2nd_best) := rfl

theorem finalizeFloat_d1 (r : NNResult ℚ) :
    (finalizeFloat r).dist_1st_best =
      min 1 (max 0 (2 - 2 * r.dist_1st_best)) := rfl

theorem finalizeFloat_d2 (r : NNResult ℚ) :
    (finalizeFloat r).dist_2nd_best =
      min 1 (max 0 (2 - 2 * r.dist_2nd_best)) := rfl

theorem finalizeShort_antitone {r : NNResult ℤ}
    (h : r.dist_2nd_best ≤ r.dist_1st_best) :
    (finalizeShort r).dist_1st_best ≤ (finalizeShort r).dist_2nd_best := by
  simp only [finalizeShort]
  omega

theorem finalizeFloat_index (r : NNResult ℚ) :
    (finalizeFloat r).index_1st_best = r.index_1st_best ∧
    (finalizeFloat r).index_2nd_best = r.index_2nd_best :=
  ⟨rfl, rfl⟩

theorem finalizeFloat_antitone {r : NNResult ℚ}
    (h : r.dist_2nd_best ≤ r.dist_1st_best) :
    (finalizeFloat r).dist_1st_best ≤ (finalizeFloat r).dist_2nd_best := by
  simp only [finalizeFloat]
  exact min_le_min le_rfl (max_le_max le_rfl (by linarith))

theorem wrap16_eq {z : ℤ} (h1 : -32768 ≤ z) (h2 : z ≤ 32767) :
    wrap16 z = z := by
  unfold wrap16
  omega

theorem zipAbsSum_nonneg (q c : List ℤ) :
    0 ≤ (List.zipWith (fun a b => |a * b|) q c).sum := by
  induction q generalizing c with
  | nil => simp
  | cons a q ih =>
    cases c with
    | nil => simp
    | cons b c => simpa using add_nonneg (abs_nonneg (a * b)) (ih c)

theorem exists_cons8 {α : Type} (l : List α) (h : 8 ≤ l.length) :
    ∃ x0 x1 x2 x3 x4 x5 x6 x7 t,
      l = x0 :: x1 :: x2 :: x3 :: x4 :: x5 :: x6 :: x7 :: t := by
  rcases l with _ | ⟨x0, _ | ⟨x1, _ | ⟨x2, _ | ⟨x3, _ | ⟨x4, _ | ⟨x5,
    _ | ⟨x6, _ | ⟨x7, t⟩⟩⟩⟩⟩⟩⟩⟩
  all_goals first
    | exact ⟨_, _, _, _, _, _, _, _, _, rfl⟩
    | (simp at h)

theorem exists_cons4 {α : Type} (l : List α) (h : 4 ≤ l.length) :
    ∃ x0 x1 x2 x3 t, l = x0 :: x1 :: x2 :: x3 :: t := by
  rcases l with _ | ⟨x0, _ | ⟨x1, _ | ⟨x2, _ | ⟨x3, t⟩⟩⟩⟩
  all_goals first
    | exact ⟨_, _, _, _, _, rfl⟩
    | (simp at h)

/-- As long as the sum of the absolute products fits a 16-bit lane, no
lane ever wraps and the SSE2 accumulation is exact. -/
theorem sseDotGo_exact (q c : List ℤ) (a0 a1 a2 a3 a4 a5 a6 a7 : ℤ)
    (hl : q.length = c.length) (h8 : 8 ∣ q.length)
    (hb : |a0| + |a1| + |a2| + |a3| + |a4| + |a5| + |a6| + |a7| +
      (List.zipWith (fun a b => |a * b|) q c).sum ≤ 32767) :
    sseDotGo q c a0 a1 a2 a3 a4 a5 a6 a7 =
      a0 + a1 + a2 + a3 + a4 + a5 + a6 + a7 + nnDot q c := by
  induction q, c, a0, a1, a2, a3, a4, a5, a6, a7 using sseDotGo.induct with
  | case1 q0 q1 q2 q3 q4 q5 q6 q7 qt c0 c1 c2 c3 c4 c5 c6 c7 ct
      a0 a1 a2 a3 a4 a5 a6 a7 ih =>
    simp only [List.zipWith_cons_cons, List.sum_cons] at hb
    have hl' : qt.length = ct.length := by
      simp only [List.length_cons] at hl
      omega
    have h8' : 8 ∣ qt.length := by
      simp only [List.length_cons] at h8
      omega
    have nS := zipAbsSum_nonneg qt ct
    have n0 : 0 ≤ |a0| := abs_nonneg a0
    have n1 : 0 ≤ |a1| := abs_nonneg a1
    have n2 : 0 ≤ |a2| := abs_nonneg a2
    have n3 : 0 ≤ |a3| := abs_nonneg a3
    have n4 : 0 ≤ |a4| := abs_nonneg a4
    have n5 : 0 ≤ |a5| := abs_nonneg a5
    have n6 : 0 ≤ |a6| := abs_nonneg a6
    have n7 : 0 ≤ |a7| := abs_nonneg a7
    have m0 : 0 ≤ |q0 * c0| := abs_nonneg _
    have m1 : 0 ≤ |q1 * c1| := abs_nonneg _
    have m2 : 0 ≤ |q2 * c2| := abs_nonneg _
    have m3 : 0 ≤ |q3 * c3| := abs_nonneg _
    have m4 : 0 ≤ |q4 * c4| := abs_nonneg _
    have m5 : 0 ≤ |q5 * c5| := abs_nonneg _
    have m6 : 0 ≤ |q6 * c6| := abs_nonneg _
    have m7 : 0 ≤ |q7 * c7| := abs_nonneg _
    have w0 : wrap16 (q0 * c0) = q0 * c0 := by
      have h' := abs_le.mp (show |q0 * c0| ≤ 32767 by linarith)
      exact wrap16_eq (by linarith [h'.1]) h'.2
    have w1 : wrap16 (q1 * c1) = q1 * c1 := by
      have h' := abs_le.mp (show |q1 * c1| ≤ 32767 by linarith)
      exact wrap16_eq (by linarith [h'.1]) h'.2
    have w2 : wrap16 (q2 * c2) = q2 * c2 := by
      have h' := abs_le.mp (show |q2 * c2| ≤ 32767 by linarith)
      exact wrap16_eq (by linarith [h'.1]) h'.2
    have w3 : wrap16 (q3 * c3) = q3 * c3 := by
      have h' := abs_le.mp (show |q3 * c3| ≤ 32767 by linarith)
      exact wrap16_eq (by linarith [h'.1]) h'.2
    have w4 : wrap16 (q4 * c4) = q4 * c4 := by
      have h' := abs_le.mp (show |q4 * c4| ≤ 32767 by linarith)
      exact wrap16_eq (by linarith [h'.1]) h'.2
    have w5 : wrap16 (q5 * c5) = q5 * c5 := by
      have h' := abs_le.mp (show |q5 * c5| ≤ 32767 by linarith)
      exact wrap16_eq (by linarith [h'.1]) h'.2
    have w6 : wrap16 (q6 * c6) = q6 * c6 := by
      have h' := abs_le.mp (show |q6 * c6| ≤ 32767 by linarith)
      exact wrap16_eq (by linarith [h'.1]) h'.2
    have w7 : wrap16 (q7 * c7) = q7 * c7 := by
      have h' := abs_le.mp (show |q7 * c7| ≤ 32767 by linarith)
      exact wrap16_eq (by linarith [h'.1]) h'.2
    have t0 : |a0 + q0 * c0| ≤ |a0| + |q0 * c0| := abs_add a0 _
    have t1 : |a1 + q1 * c1| ≤ |a1| + |q1 * c1| := abs_add a1 _
    have t2 : |a2 + q2 * c2| ≤ |a2| + |q2 * c2| := abs_add a2 _
    have t3 : |a3 + q3 * c3| ≤ |a3| + |q3 * c3| := abs_add a3 _
    have t4 : |a4 + q4 * c4| ≤ |a4| + |q4 * c4| := abs_add a4 _
    have t5 : |a5 + q5 * c5| ≤ |a5| + |q5 * c5| := abs_add a5 _
    have t6 : |a6 + q6 * c6| ≤ |a6| + |q6 * c6| := abs_add a6 _
    have t7 : |a7 + q7 * c7| ≤ |a7| + |q7 * c7| := abs_add a7 _
    have u0 : wrap16 (a0 + q0 * c0) = a0 + q0 * c0 := by
      have h' := abs_le.mp (show |a0 + q0 * c0| ≤ 32767 by linarith)
      exact wrap16_eq (by linarith [h'.1]) h'.2
    have u1 : wrap16 (a1 + q1 * c1) = a1 + q1 * c1 := by
      have h' := abs_le.mp (show |a1 + q1 * c1| ≤ 32767 by linarith)
      exact wrap16_eq (by linarith [h'.1]) h'.2
    have u2 : wrap16 (a2 + q2 * c2) = a2 + q2 * c2 := by
      have h' := abs_le.mp (show |a2 + q2 * c2| ≤ 32767 by linarith)
      exact wrap16_eq (by linarith [h'.1]) h'.2
    have u3 : wrap16 (a3 + q3 * c3) = a3 + q3 * c3 := by
      have h' := abs_le.mp (show |a3 + q3 * c3| ≤ 32767 by linarith)
      exact wrap16_eq (by linarith [h'.1]) h'.2
    have u4 : wrap16 (a4 + q4 * c4) = a4 + q4 * c4 := by
      have h' := abs_le.mp (show |a4 + q4 * c4| ≤ 32767 by linarith)
      exact wrap16_eq (by linarith [h'.1]) h'.2
    have u5 : wrap16 (a5 + q5 * c5) = a5 + q5 * c5 := by
      have h' := abs_le.mp (show |a5 + q5 * c5| ≤ 32767 by linarith)
      exact wrap16_eq (by linarith [h'.1]) h'.2
    have u6 : wrap16 (a6 + q6 * c6) = a6 + q6 * c6 := by
      have h' := abs_le.mp (show |a6 + q6 * c6| ≤ 32767 by linarith)
      exact wrap16_eq (by linarith [h'.1]) h'.2
    have u7 : wrap16 (a7 + q7 * c7) = a7 + q7 * c7 := by
      have h' := abs_le.mp (show |a7 + q7 * c7| ≤ 32767 by linarith)
      exact wrap16_eq (by linarith [h'.1]) h'.2
    have ihh := ih hl' h8' (by
      rw [w0, w1, w2, w3, w4, w5, w6, w7, u0, u1, u2, u3, u4, u5, u6, u7]
      linarith)
    rw [w0, w1, w2, w3, w4, w5, w6, w7, u0, u1, u2, u3, u4, u5, u6, u7]
      at ihh
    simp only [sseDotGo]
    rw [w0, w1, w2, w3, w4, w5, w6, w7, u0, u1, u2, u3, u4, u5, u6, u7,
      ihh]
    simp only [nnDot, List.zipWith_cons_cons, List.sum_cons]
    ring
  | case2 q c a0 a1 a2 a3 a4 a5 a6 a7 h =>
    rcases Nat.eq_zero_or_pos q.length with hq | hq
    · have hqe : q = [] := List.length_eq_zero.mp hq
      have hce : c = [] := List.length_eq_zero.mp (by omega)
      subst hqe
      subst hce
      simp [sseDotGo, nnDot]
    · have h8q : 8 ≤ q.length := by omega
      obtain ⟨q0, q1, q2, q3, q4, q5, q6, q7, qt, rfl⟩ := exists_cons8 q h8q
      obtain ⟨c0, c1, c2, c3, c4, c5, c6, c7, ct, rfl⟩ :=
        exists_cons8 c (by simp only [List.length_cons] at hl ⊢; omega)
      exact (h q0 q1 q2 q3 q4 q5 q6 q7 qt c0 c1 c2 c3 c4 c5 c6 c7 ct rfl
        rfl).elim

/-- Over exact rational arithmetic, the SSE3 lane accumulation computes
the inner product exactly. -/
theorem sseDotGoF_exact (q c : List ℚ) (b0 b1 b2 b3 : ℚ)
    (hl : q.length = c.length) (h4 : 4 ∣ q.length) :
    sseDotGoF q c b0 b1 b2 b3 = b0 + b1 + b2 + b3 + nnDot q c := by
  induction q, c, b0, b1, b2, b3 using sseDotGoF.induct with
  | case1 q0 q1 q2 q3 qt c0 c1 c2 c3 ct b0 b1 b2 b3 ih =>
    have hl' : qt.length = ct.length := by
      simp only [List.length_cons] at hl
      omega
    have h4' : 4 ∣ qt.length := by
      simp only [List.length_cons] at h4
      omega
    simp only [sseDotGoF]
    rw [ih hl' h4']
    simp only [nnDot, List.zipWith_cons_cons, List.sum_cons]
    ring
  | case2 q c b0 b1 b2 b3 h =>
    rcases Nat.eq_zero_or_pos q.length with hq | hq
    · have hqe : q = [] := List.length_eq_zero.mp hq
      have hce : c = [] := List.length_eq_zero.mp (by omega)
      subst hqe
      subst hce
      simp [sseDotGoF, nnDot]
      ring
    · have h4q : 4 ≤ q.length := by omega
      obtain ⟨q0, q1, q2, q3, qt, rfl⟩ := exists_cons4 q h4q
      obtain ⟨c0, c1, c2, c3, ct, rfl⟩ :=
        exists_cons4 c (by simp only [List.length_cons] at hl ⊢; omega)
      exact (h q0 q1 q2 q3 qt c0 c1 c2 c3 ct rfl rfl).elim

theorem nnScanFrom_congr {α : Type} [LinearOrder α] (f g : List α → α)
    (cs : List (List α)) (h : ∀ c ∈ cs, f c = g c) :
    ∀ (r : NNResult α) (i : ℕ),
      nnScanFrom f r i cs = nnScanFrom g r i cs := by
  induction cs with
  | nil => intro r i; rfl
  | cons c cs ih =>
    intro r i
    simp only [nnScanFrom, h c (by simp)]
    exact ih (fun c' hc' => h c' (by simp [hc'])) _ _

/-- C4 counterexample: with 16-bit lane overflow (`200 * 200 = 40000`
wraps to `-25536`), the SSE2 path and the scalar path of the quantized
matcher rank the two stored descriptors in opposite order, although the
dimension (8) is a multiple of the lane width. -/
theorem c4_counterexample :
    8 ∣ ([200, 0, 0, 0, 0, 0, 0, 0] : List ℤ).length ∧
    (findShortSSE [200, 0, 0, 0, 0, 0, 0, 0]
      [[200, 0, 0, 0, 0, 0, 0, 0],
       [100, 0, 0, 0, 0, 0, 0, 0]]).index_1st_best = 1 ∧
    (findShort [200, 0, 0, 0, 0, 0, 0, 0]
      [[200, 0, 0, 0, 0, 0, 0, 0],
       [100, 0, 0, 0, 0, 0, 0, 0]]).index_1st_best = 0 ∧
    findShortSSE [200, 0, 0, 0, 0, 0, 0, 0]
      [[200, 0, 0, 0, 0, 0, 0, 0], [100, 0, 0, 0, 0, 0, 0, 0]] ≠
      findShort [200, 0, 0, 0, 0, 0, 0, 0]
        [[200, 0, 0, 0, 0, 0, 0, 0], [100, 0, 0, 0, 0, 0, 0, 0]] := by
  refine ⟨by decide, by decide, by decide, by decide⟩

/-- C4 (amended): on well-formed inputs (dimension a multiple of the lane
width) the scalar and vectorized paths return identical results — for the
quantized matcher provided additionally that no 16-bit lane accumulation
can overflow (the summed absolute products of query and each element stay
within 32767, as holds for the intended 127-scaled unit descriptors); the
float-domain paths agree exactly in the exact-arithmetic model, hence
within any floating rounding tolerance. -/
theorem c4_path_equivalence (q : List ℤ) (els : List (List ℤ))
    (qf : List ℚ) (elsf : List (List ℚ))
    (h8 : 8 ∣ q.length) (hlen : ∀ c ∈ els, c.length = q.length)
    (hsat : ∀ c ∈ els, (List.zipWith (fun a b => |a * b|) q c).sum ≤ 32767)
    (h4 : 4 ∣ qf.length) (hlenf : ∀ c ∈ elsf, c.length = qf.length) :
    findShortSSE q els = findShort q els ∧
    findFloatSSE qf elsf = findFloat qf elsf := by
  constructor
  · unfold findShortSSE findShort scanShort
    refine congrArg finalizeShort ?_
    refine nnScanFrom_congr _ _ els ?_ _ _
    intro c hc
    have h := sseDotGo_exact q c 0 0 0 0 0 0 0 0 ((hlen c hc).symm) h8
      (by simpa using hsat c hc)
    simpa [sseDotShort] using h
  · unfold findFloatSSE findFloat scanFloat
    refine congrArg finalizeFloat ?_
    refine nnScanFrom_congr _ _ elsf ?_ _ _
    intro c hc
    have h := sseDotGoF_exact qf c 0 0 0 0 ((hlenf c hc).symm) h4
    simpa [sseDotFloat] using h

theorem c4_path_equivalence_witness :
    (8 ∣ ([1, 2, 3, 4, 5, 6, 7, 8] : List ℤ).length ∧
     (∀ c ∈ ([[1, 1, 1, 1, 1, 1, 1, 1], [2, 0, 0, 0, 0, 0, 0, 0]] :
        List (List ℤ)), c.length = 8) ∧
     (∀ c ∈ ([[1, 1, 1, 1, 1, 1, 1, 1], [2, 0, 0, 0, 0, 0, 0, 0]] :
        List (List ℤ)),
       (List.zipWith (fun a b => |a * b|) [1, 2, 3, 4, 5, 6, 7, 8] c).sum ≤
         32767) ∧
     4 ∣ ([1, 0, 0, 0] : List ℚ).length) ∧
    (findShortSSE [1, 2, 3, 4, 5, 6, 7, 8]
        [[1, 1, 1, 1, 1, 1, 1, 1], [2, 0, 0, 0, 0, 0, 0, 0]] =
      findShort [1, 2, 3, 4, 5, 6, 7, 8]
        [[1, 1, 1, 1, 1, 1, 1, 1], [2, 0, 0, 0, 0, 0, 0, 0]] ∧
     findFloatSSE [1, 0, 0, 0] [[1, 0, 0, 0]] =
      findFloat [1, 0, 0, 0] [[1, 0, 0, 0]]) :=
  ⟨⟨by decide, by decide, by decide, by decide⟩,
   c4_path_equivalence [1, 2, 3, 4, 5, 6, 7, 8]
     [[1, 1, 1, 1, 1, 1, 1, 1], [2, 0, 0, 0, 0, 0, 0, 0]]
     [1, 0, 0, 0] [[1, 0, 0, 0]] (by decide) (by decide) (by decide)
     (by decide) (by simp)⟩

/-- C2: after the scan, `find()` converts the two retained raw inner
products into squared distances by the domain-specific closed forms —
quantized domain: clamp into `[0, 16129]`, then `32258 - 2 * value`;
normalized float domain: `2 - 2 * value` clamped into `[0, 1]` — leaving
the two indices unchanged. -/
theorem c2_finalization_closed_forms (q : List ℤ) (els : List (List ℤ))
    (qf : List ℚ) (elsf : List (List ℚ)) :
    (findShort q els).index_1st_best = (scanShort q els).index_1st_best ∧
    (findShort q els).index_2nd_best = (scanShort q els).index_2nd_best ∧
    (findShort q els).dist_1st_best =
      32258 - 2 * min 16129 (max 0 (scanShort q els).dist_1st_best) ∧
    (findShort q els).dist_2nd_best =
      32258 - 2 * min 16129 (max 0 (scanShort q els).dist_2nd_best) ∧
    (findFloat qf elsf).index_1st_best = (scanFloat qf elsf).index_1st_best ∧
    (findFloat qf elsf).index_2nd_best = (scanFloat qf elsf).index_2nd_best ∧
    (findFloat qf elsf).dist_1st_best =
      min 1 (max 0 (2 - 2 * (scanFloat qf elsf).dist_1st_best)) ∧
    (findFloat qf elsf).dist_2nd_best =
      min 1 (max 0 (2 - 2 * (scanFloat qf elsf).dist_2nd_best)) :=
  ⟨rfl, rfl, rfl, rfl, rfl, rfl, rfl, rfl⟩

/-- C3 counterexample: the quantized matcher's distances do not always lie
in `[0, 16129]` — already a single zero descriptor yields distance
`32258`. -/
theorem c3_range_counterexample :
    (findShort [1] [[0]]).dist_1st_best = 32258 ∧
    ¬ (findShort [1] [[0]]).dist_1st_best ≤ 16129 := by
  constructor <;> decide

/-- C3 (amended): for every input, the quantized matcher's distances lie
in `[0, 32258]` and the normalized float matcher's distances lie in
`[0, 1]`. -/
theorem c3_distance_ranges (q : List ℤ) (els : List (List ℤ))
    (qf : List ℚ) (elsf : List (List ℚ)) :
    (0 ≤ (findShort q els).dist_1st_best ∧
      (findShort q els).dist_1st_best ≤ 32258) ∧
    (0 ≤ (findShort q els).dist_2nd_best ∧
      (findShort q els).dist_2nd_best ≤ 32258) ∧
    (0 ≤ (findFloat qf elsf).dist_1st_best ∧
      (findFloat qf elsf).dist_1st_best ≤ 1) ∧
    (0 ≤ (findFloat qf elsf).dist_2nd_best ∧
      (findFloat qf elsf).dist_2nd_best ≤ 1) := by
  simp only [findShort, findFloat, finalizeShort_d1, finalizeShort_d2,
    finalizeFloat_d1, finalizeFloat_d2]
  exact ⟨⟨by omega, by omega⟩, ⟨by omega, by omega⟩,
    ⟨le_min zero_le_one (le_max_left 0 _), min_le_left 1 _⟩,
    ⟨le_min zero_le_one (le_max_left 0 _), min_le_left 1 _⟩⟩

theorem nnUpdate_init_gt {α : Type} [LinearOrder α] {s ip : α} (h : s < ip) :
    nnUpdate (nnInit s) 0 ip =
      { index_1st_best := 0, index_2nd_best := 0
        dist_1st_best := ip, dist_2nd_best := s } := by
  unfold nnUpdate nnInit
  split_ifs with h1
  · rfl
  · exact absurd h h1

theorem nnUpdate_mid {α : Type} [LinearOrder α] {r : NNResult α} {i : ℕ}
    {ip : α} (h2 : r.dist_2nd_best < ip) (h1 : ¬ r.dist_1st_best < ip) :
    nnUpdate r i ip = { r with index_2nd_best := i, dist_2nd_best := ip } := by
  unfold nnUpdate
  rw [if_pos h2, if_neg h1]

theorem nnUpdate_eq_d1 {α : Type} [LinearOrder α] (r : NNResult α) (i : ℕ)
    {ip : α} (h : ip = r.dist_1st_best) :
    (nnUpdate r i ip).index_1st_best = r.index_1st_best ∧
    (nnUpdate r i ip).dist_1st_best = r.dist_1st_best := by
  unfold nnUpdate
  split_ifs with h1 h2
  · rw [h] at h2
    exact absurd h2 (lt_irrefl _)
  · exact ⟨rfl, rfl⟩
  · exact ⟨rfl, rfl⟩

/-- C1 counterexample: with two stored descriptors whose inner products
with the query both fall at or below the `-32767` initialization sentinel,
no update ever fires and `find()` reports equal best/second-best indices,
refuting the claimed index distinctness for `num_elements >= 2`. -/
theorem c1_counterexample :
    2 ≤ ([[-182], [-183]] : List (List ℤ)).length ∧
    (∀ c ∈ ([[-182], [-183]] : List (List ℤ)),
      c.length = [(181 : ℤ)].length) ∧
    (findShort [181] [[-182], [-183]]).index_1st_best =
      (findShort [181] [[-182], [-183]]).index_2nd_best := by
  exact ⟨by decide, by decide, by decide⟩

/-- C1 (amended): for every descriptor space with `num_elements >= 2` and
query of matching dimension, `find()` returns
`dist_1st_best <= dist_2nd_best` unconditionally; the two indices are
distinct provided some element at index `>= 1` has inner product with the
query strictly above the initialization sentinel (`-32767` for the
quantized matcher, `-FLT_MAX` for the normalized float matcher), and when
every element at index `>= 1` scores at or below that sentinel both
indices are reported as `0` — in both domains. -/
theorem c1_top2_invariant (q : List ℤ) (els : List (List ℤ))
    (qf : List ℚ) (elsf : List (List ℚ))
    (hn : 2 ≤ els.length) (hd : ∀ c ∈ els, c.length = q.length)
    (hnf : 2 ≤ elsf.length) (hdf : ∀ c ∈ elsf, c.length = qf.length) :
    (findShort q els).dist_1st_best ≤ (findShort q els).dist_2nd_best ∧
    (findFloat qf elsf).dist_1st_best ≤ (findFloat qf elsf).dist_2nd_best ∧
    ((∃ c ∈ els.tail, shortSentinel < nnDot q c) →
      (findShort q els).index_1st_best ≠ (findShort q els).index_2nd_best) ∧
    ((∃ c ∈ elsf.tail, -floatMax < nnDot qf c) →
      (findFloat qf elsf).index_1st_best ≠
        (findFloat qf elsf).index_2nd_best) ∧
    ((∀ c ∈ els.tail, nnDot q c ≤ shortSentinel) →
      (findShort q els).index_1st_best = 0 ∧
      (findShort q els).index_2nd_best = 0) ∧
    ((∀ c ∈ elsf.tail, nnDot qf c ≤ -floatMax) →
      (findFloat qf elsf).index_1st_best = 0 ∧
      (findFloat qf elsf).index_2nd_best = 0) := by
  obtain ⟨e, rest, rfl⟩ : ∃ e rest, els = e :: rest := by
    cases els with
    | nil => simp at hn
    | cons e rest => exact ⟨e, rest, rfl⟩
  obtain ⟨ef, restf, rfl⟩ : ∃ e rest, elsf = e :: rest := by
    cases elsf with
    | nil => simp at hnf
    | cons e rest => exact ⟨e, rest, rfl⟩
  refine ⟨?_, ?_, ?_, ?_, ?_, ?_⟩
  · exact finalizeShort_antitone
      (nnScanFrom_d2_le_d1 (fun c => nnDot q c) (e :: rest)
        (nnInit shortSentinel) 0 le_rfl)
  · exact finalizeFloat_antitone
      (nnScanFrom_d2_le_d1 (fun c => nnDot qf c) (ef :: restf)
        (nnInit (-floatMax)) 0 le_rfl)
  · exact fun hip =>
      nnScanFrom_init_distinct (fun c => nnDot q c) shortSentinel e rest hip
  · exact fun hipf =>
      nnScanFrom_init_distinct (fun c => nnDot qf c) (-floatMax) ef restf
        hipf
  · exact fun hsat =>
      nnScanFrom_init_saturated (fun c => nnDot q c) shortSentinel e rest
        hsat
  · exact fun hsatf =>
      nnScanFrom_init_saturated (fun c => nnDot qf c) (-floatMax) ef restf
        hsatf

theorem c1_top2_invariant_witness :
    (2 ≤ ([[5], [3]] : List (List ℤ)).length ∧
     (∀ c ∈ ([[5], [3]] : List (List ℤ)), c.length = [(1 : ℤ)].length) ∧
     2 ≤ ([[1], [0]] : List (List ℚ)).length ∧
     (∀ c ∈ ([[1], [0]] : List (List ℚ)), c.length = [(1 : ℚ)].length)) ∧
    ((findShort [1] [[5], [3]]).dist_1st_best ≤
       (findShort [1] [[5], [3]]).dist_2nd_best ∧
     (findFloat [1] [[1], [0]]).dist_1st_best ≤
       (findFloat [1] [[1], [0]]).dist_2nd_best ∧
     (findShort [1] [[5], [3]]).index_1st_best ≠
       (findShort [1] [[5], [3]]).index_2nd_best ∧
     (findFloat [1] [[1], [0]]).index_1st_best ≠
       (findFloat [1] [[1], [0]]).index_2nd_best) ∧
    ((findShort [181] [[-182], [-183]]).index_1st_best = 0 ∧
     (findShort [181] [[-182], [-183]]).index_2nd_best = 0 ∧
     (findFloat [2 ^ 70] [[-2 ^ 70], [-2 ^ 71]]).index_1st_best = 0 ∧
     (findFloat [2 ^ 70] [[-2 ^ 70], [-2 ^ 71]]).index_2nd_best = 0) :=
  ⟨⟨by decide, by decide, by norm_num, by simp⟩,
   ⟨(c1_top2_invariant [1] [[5], [3]] [1] [[1], [0]] (by decide) (by decide)
       (by norm_num) (by simp)).1,
    (c1_top2_invariant [1] [[5], [3]] [1] [[1], [0]] (by decide) (by decide)
       (by norm_num) (by simp)).2.1,
    (c1_top2_invariant [1] [[5], [3]] [1] [[1], [0]] (by decide) (by decide)
       (by norm_num) (by simp)).2.2.1 ⟨[3], by simp, by decide⟩,
    (c1_top2_invariant [1] [[5], [3]] [1] [[1], [0]] (by decide) (by decide)
       (by norm_num) (by simp)).2.2.2.1
      ⟨[0], by simp, by norm_num [nnDot, floatMax]⟩⟩,
   ⟨((c1_top2_invariant [181] [[-182], [-183]] [2 ^ 70]
       [[-2 ^ 70], [-2 ^ 71]] (by decide) (by decide) (by norm_num)
       (by simp)).2.2.2.2.1 (by decide)).1,
    ((c1_top2_invariant [181] [[-182], [-183]] [2 ^ 70]
       [[-2 ^ 70], [-2 ^ 71]] (by decide) (by decide) (by norm_num)
       (by simp)).2.2.2.2.1 (by decide)).2,
    ((c1_top2_invariant [181] [[-182], [-183]] [2 ^ 70]
       [[-2 ^ 70], [-2 ^ 71]] (by decide) (by decide) (by norm_num)
       (by simp)).2.2.2.2.2 (by
         intro c hc
         simp only [List.tail_cons, List.mem_singleton] at hc
         subst hc
         norm_num [nnDot, floatMax])).1,
    ((c1_top2_invariant [181] [[-182], [-183]] [2 ^ 70]
       [[-2 ^ 70], [-2 ^ 71]] (by decide) (by decide) (by norm_num)
       (by simp)).2.2.2.2.2 (by
         intro c hc
         simp only [List.tail_cons, List.mem_singleton] at hc
         subst hc
         norm_num [nnDot, floatMax])).2⟩⟩

/-- C10: the quantized matcher initializes both running maxima to `-32767`
with both indices `0`; if every stored descriptor's inner product with the
query is `<= -32767` then no update occurs and the result reports both
indices `0` even with `num_elements >= 2`, and an empty space likewise
returns both indices `0`. -/
theorem c10_sentinel_saturation (q : List ℤ) (els : List (List ℤ))
    (hn : 2 ≤ els.length) (hip : ∀ c ∈ els, nnDot q c ≤ shortSentinel) :
    nnInit shortSentinel =
      { index_1st_best := 0, index_2nd_best := 0
        dist_1st_best := -32767, dist_2nd_best := -32767 } ∧
    scanShort q els = nnInit shortSentinel ∧
    (findShort q els).index_1st_best = 0 ∧
    (findShort q els).index_2nd_best = 0 ∧
    (findShort q []).index_1st_best = 0 ∧
    (findShort q []).index_2nd_best = 0 := by
  have h : scanShort q els = nnInit shortSentinel :=
    nnScanFrom_of_all_le (fun c => nnDot q c) shortSentinel els hip
      (nnInit shortSentinel) 0 rfl
  have h1 : (findShort q els).index_1st_best =
      (scanShort q els).index_1st_best := rfl
  have h2 : (findShort q els).index_2nd_best =
      (scanShort q els).index_2nd_best := rfl
  exact ⟨rfl, h, by rw [h1, h]; rfl, by rw [h2, h]; rfl, rfl, rfl⟩

theorem c10_sentinel_saturation_witness :
    (2 ≤ ([[-182], [-183]] : List (List ℤ)).length ∧
     (∀ c ∈ ([[-182], [-183]] : List (List ℤ)),
        nnDot [181] c ≤ shortSentinel)) ∧
    (scanShort [181] [[-182], [-183]] = nnInit shortSentinel ∧
     (findShort [181] [[-182], [-183]]).index_1st_best = 0 ∧
     (findShort [181] [[-182], [-183]]).index_2nd_best = 0) :=
  ⟨⟨by decide, by decide⟩,
   ⟨(c10_sentinel_saturation [181] [[-182], [-183]] (by decide)
      (by decide)).2.1,
    (c10_sentinel_saturation [181] [[-182], [-183]] (by decide)
      (by decide)).2.2.1,
    (c10_sentinel_saturation [181] [[-182], [-183]] (by decide)
      (by decide)).2.2.2.1⟩⟩

/-- C5: scan comparisons are strict, so an inner product equal to the
current best leaves the best entry (index and score) unchanged, one equal
to the current second-best leaves the state entirely unchanged — in both
domains — and consequently in a two-element space with tied inner products
the earlier element is reported first, the later one second. -/
theorem c5_strict_tie_break (r : NNResult ℤ) (i : ℕ) (ip : ℤ)
    (rf : NNResult ℚ) (j : ℕ) (ipf : ℚ) :
    ((ip = r.dist_1st_best →
        (nnUpdate r i ip).index_1st_best = r.index_1st_best ∧
        (nnUpdate r i ip).dist_1st_best = r.dist_1st_best) ∧
     (ip = r.dist_2nd_best → nnUpdate r i ip = r)) ∧
    ((ipf = rf.dist_1st_best →
        (nnUpdate rf j ipf).index_1st_best = rf.index_1st_best ∧
        (nnUpdate rf j ipf).dist_1st_best = rf.dist_1st_best) ∧
     (ipf = rf.dist_2nd_best → nnUpdate rf j ipf = rf)) ∧
    (∀ (q c c' : List ℤ), nnDot q c = nnDot q c' →
      shortSentinel < nnDot q c →
      (findShort q [c, c']).index_1st_best = 0 ∧
      (findShort q [c, c']).index_2nd_best = 1) := by
  refine ⟨⟨fun h => nnUpdate_eq_d1 r i h,
      fun h => nnUpdate_of_le (le_of_eq h)⟩,
    ⟨fun h => nnUpdate_eq_d1 rf j h,
      fun h => nnUpdate_of_le (le_of_eq h)⟩, ?_⟩
  intro q c c' hEq hGt
  have h1 : (findShort q [c, c']).index_1st_best =
      (scanShort q [c, c']).index_1st_best := rfl
  have h2 : (findShort q [c, c']).index_2nd_best =
      (scanShort q [c, c']).index_2nd_best := rfl
  have hscan : scanShort q [c, c'] =
      nnUpdate (nnUpdate (nnInit shortSentinel) 0 (nnDot q c)) 1
        (nnDot q c') := rfl
  rw [h1, h2, hscan, ← hEq, nnUpdate_init_gt hGt,
    nnUpdate_mid (by exact hGt) (by exact lt_irrefl _)]
  exact ⟨rfl, rfl⟩

theorem c5_strict_tie_break_witness :
    ((3 : ℤ) = (NNResult.mk 0 1 (3 : ℤ) 2).dist_1st_best ∧
      (nnUpdate (NNResult.mk 0 1 (3 : ℤ) 2) 5 3).index_1st_best = 0) ∧
    ((findShort [1] [[7], [7]]).index_1st_best = 0 ∧
     (findShort [1] [[7], [7]]).index_2nd_best = 1) :=
  ⟨⟨rfl,
    ((c5_strict_tie_break (NNResult.mk 0 1 (3 : ℤ) 2) 5 3
        (NNResult.mk 0 1 (1 : ℚ) 0) 5 1).1.1 rfl).1⟩,
   (c5_strict_tie_break (NNResult.mk 0 1 (3 : ℤ) 2) 5 3
      (NNResult.mk 0 1 (1 : ℚ) 0) 5 1).2.2 [1] [7] [7] rfl (by decide)⟩

/-- C6: on an empty descriptor space `find()` returns the degenerate
no-match result: both distances equal the maximal sentinel (`32258` in the
quantized domain, `1` in the normalized float domain), both indices `0`. -/
theorem c6_empty_space (q : List ℤ) (qf : List ℚ) :
    findShort q [] =
      { index_1st_best := 0, index_2nd_best := 0
        dist_1st_best := 32258, dist_2nd_best := 32258 } ∧
    findFloat qf [] =
      { index_1st_best := 0, index_2nd_best := 0
        dist_1st_best := 1, dist_2nd_best := 1 } := by
  constructor
  · norm_num [findShort, scanShort, nnScanFrom, nnInit, finalizeShort,
      shortSentinel]
  · norm_num [findFloat, scanFloat, nnScanFrom, nnInit, finalizeFloat,
      floatMax]

/-- C7 counterexample: for a 4001x1 image under a 1000-pixel budget the
code derives scale 2, yet already `s = 1` satisfies
`(width*height) >> (2*s) <= max_pixels`, so the claimed
shift-characterization ("the smallest non-negative integer s with
`(width*height) >> (2s) <= max_pixels`") does not match the code. -/
theorem c7_counterexample :
    get_scale_from_max_pixels 4001 1 1000 = 2 ∧
    (4001 * 1) >>> (2 * 1) ≤ 1000 ∧ (1 : ℕ) < 2 := by
  refine ⟨?_, by decide, by decide⟩
  unfold get_scale_from_max_pixels
  rw [if_neg (by norm_num)]
  have l4 : (0 : ℝ) < Real.log 4 := Real.log_pos (by norm_num)
  have hr : ((4001 : ℕ) : ℝ) * ((1 : ℕ) : ℝ) / ((1000 : ℕ) : ℝ) =
      (4001 : ℝ) / 1000 := by norm_num
  rw [hr]
  have hc : ⌈Real.log ((4001 : ℝ) / 1000) / Real.log 4⌉ = 2 := by
    rw [Int.ceil_eq_iff]
    constructor
    · push_cast
      rw [show (2 : ℝ) - 1 = 1 by norm_num, lt_div_iff₀ l4, one_mul]
      exact (Real.log_lt_log_iff (by norm_num) (by norm_num)).mpr
        (by norm_num)
    · push_cast
      rw [div_le_iff₀ l4]
      have h16 : (2 : ℝ) * Real.log 4 = Real.log 16 := by
        rw [show (16 : ℝ) = 4 ^ (2 : ℕ) by norm_num, Real.log_pow]
        norm_num
      rw [h16]
      exact (Real.log_le_log_iff (by norm_num) (by norm_num)).mpr
        (by norm_num)
  rw [hc]
  norm_num

/-- C7 (amended): with a positive maximum-pixel budget, the derived
pyramid scale equals `max(0, ceil(log4(width*height / max_pixels)))`;
equivalently it is the smallest non-negative integer `s` with
`width*height <= max_pixels * 4^s`; in particular it is `6` for
`max_pixels = 1000` on a 2000x2000 image, and `0` whenever
`width*height <= max_pixels`. -/
theorem c7_scale_from_max_pixels (width height max_pixels : ℕ)
    (hmp : 0 < max_pixels) :
    get_scale_from_max_pixels width height max_pixels =
      max 0 ⌈Real.log ((width * height : ℝ) / (max_pixels : ℝ)) /
        Real.log 4⌉ ∧
    IsLeast {s : ℕ | width * height ≤ max_pixels * 4 ^ s}
      (get_scale_from_max_pixels width height max_pixels).toNat ∧
    get_scale_from_max_pixels 2000 2000 1000 = 6 ∧
    (width * height ≤ max_pixels →
      get_scale_from_max_pixels width height max_pixels = 0) := by
  have l4 : (0 : ℝ) < Real.log 4 := Real.log_pos (by norm_num)
  have hM : (0 : ℝ) < (max_pixels : ℝ) := by exact_mod_cast hmp
  have hconc : get_scale_from_max_pixels 2000 2000 1000 = 6 := by
    unfold get_scale_from_max_pixels
    rw [if_neg (by norm_num)]
    have hc : ⌈Real.log 4000 / Real.log 4⌉ = 6 := by
      rw [Int.ceil_eq_iff]
      constructor
      · push_cast
        rw [lt_div_iff₀ l4]
        have h1024 : (5 : ℝ) * Real.log 4 = Real.log 1024 := by
          rw [show (1024 : ℝ) = 4 ^ (5 : ℕ) by norm_num, Real.log_pow]
          norm_num
        rw [show (6 : ℝ) - 1 = 5 by norm_num, h1024]
        exact (Real.log_lt_log_iff (by norm_num) (by norm_num)).mpr
          (by norm_num)
      · push_cast
        rw [div_le_iff₀ l4]
        have h4096 : (6 : ℝ) * Real.log 4 = Real.log 4096 := by
          rw [show (4096 : ℝ) = 4 ^ (6 : ℕ) by norm_num, Real.log_pow]
          norm_num
        rw [h4096]
        exact (Real.log_le_log_iff (by norm_num) (by norm_num)).mpr
          (by norm_num)
    have hr' : ((2000 : ℕ) : ℝ) * ((2000 : ℕ) : ℝ) / ((1000 : ℕ) : ℝ) =
        4000 := by norm_num
    rw [hr', hc]
    norm_num
  by_cases hle : width * height ≤ max_pixels
  · have h0 : get_scale_from_max_pixels width height max_pixels = 0 := by
      unfold get_scale_from_max_pixels
      rw [if_pos hle]
    have hr1 : ((width : ℝ) * (height : ℝ)) / (max_pixels : ℝ) ≤ 1 := by
      rw [div_le_one hM]
      exact_mod_cast hle
    have hlog : Real.log ((width : ℝ) * (height : ℝ) / (max_pixels : ℝ)) ≤
        0 := Real.log_nonpos (by positivity) hr1
    have hceil : ⌈Real.log ((width : ℝ) * (height : ℝ) / (max_pixels : ℝ)) /
        Real.log 4⌉ ≤ 0 := by
      rw [Int.ceil_le]
      push_cast
      exact div_nonpos_of_nonpos_of_nonneg hlog l4.le
    refine ⟨?_, ⟨?_, ?_⟩, hconc, fun _ => h0⟩
    · rw [h0]
      exact (max_eq_left hceil).symm
    · simp only [Set.mem_setOf_eq, h0]
      simpa using hle
    · intro t _
      simp [h0]
  · have hlt : max_pixels < width * height := not_le.mp hle
    have hA : (max_pixels : ℝ) < (width : ℝ) * (height : ℝ) := by
      exact_mod_cast hlt
    have hR1 : 1 < (width : ℝ) * (height : ℝ) / (max_pixels : ℝ) :=
      (one_lt_div hM).mpr hA
    have hRpos : 0 < (width : ℝ) * (height : ℝ) / (max_pixels : ℝ) := by
      linarith
    have hlogpos : 0 < Real.log ((width : ℝ) * (height : ℝ) /
        (max_pixels : ℝ)) := Real.log_pos hR1
    have hLpos : 0 < Real.log ((width : ℝ) * (height : ℝ) /
        (max_pixels : ℝ)) / Real.log 4 := div_pos hlogpos l4
    have hceilpos : 0 < ⌈Real.log ((width : ℝ) * (height : ℝ) /
        (max_pixels : ℝ)) / Real.log 4⌉ := Int.ceil_pos.mpr hLpos
    have hval : get_scale_from_max_pixels width height max_pixels =
        ⌈Real.log ((width : ℝ) * (height : ℝ) / (max_pixels : ℝ)) /
          Real.log 4⌉ := by
      unfold get_scale_from_max_pixels
      rw [if_neg hle, max_eq_right hceilpos.le]
    have key : ∀ s : ℕ, (width * height ≤ max_pixels * 4 ^ s ↔
        ⌈Real.log ((width : ℝ) * (height : ℝ) / (max_pixels : ℝ)) /
          Real.log 4⌉ ≤ (s : ℤ)) := by
      intro s
      have c1 : (width * height ≤ max_pixels * 4 ^ s) ↔
          ((width : ℝ) * (height : ℝ) ≤ (max_pixels : ℝ) * 4 ^ s) := by
        rw [show ((width : ℝ) * (height : ℝ)) = ((width * height : ℕ) : ℝ)
            by push_cast; ring,
          show ((max_pixels : ℝ) * 4 ^ s) = ((max_pixels * 4 ^ s : ℕ) : ℝ)
            by push_cast; ring]
        exact (Nat.cast_le).symm
      rw [c1]
      rw [show ((width : ℝ) * (height : ℝ) ≤ (max_pixels : ℝ) * 4 ^ s) ↔
          ((width : ℝ) * (height : ℝ) / (max_pixels : ℝ) ≤ 4 ^ s) by
        rw [div_le_iff₀ hM]
        constructor <;> intro h <;> linarith]
      rw [show ((4 : ℝ) ^ s) = ((4 : ℝ) ^ (s : ℕ)) from rfl]
      rw [← Real.log_le_log_iff hRpos (pow_pos (by norm_num) s),
        Real.log_pow]
      rw [show (Real.log ((width : ℝ) * (height : ℝ) / (max_pixels : ℝ)) ≤
          (s : ℕ) * Real.log 4) ↔
          (Real.log ((width : ℝ) * (height : ℝ) / (max_pixels : ℝ)) /
            Real.log 4 ≤ (s : ℕ)) by rw [div_le_iff₀ l4]]
      rw [Int.ceil_le]
      push_cast
      exact Iff.rfl
    refine ⟨?_, ⟨?_, ?_⟩, hconc, fun h => absurd h hle⟩
    · unfold get_scale_from_max_pixels
      rw [if_neg hle]
    · simp only [Set.mem_setOf_eq]
      rw [key]
      rw [hval, Int.toNat_of_nonneg hceilpos.le]
    · intro t ht
      simp only [Set.mem_setOf_eq] at ht
      rw [hval]
      exact Int.toNat_le.mpr ((key t).mp ht)

theorem c7_scale_from_max_pixels_witness :
    0 < 1000 ∧
    (get_scale_from_max_pixels 2000 2000 1000 =
        max 0 ⌈Real.log (((2000 : ℕ) : ℝ) * ((2000 : ℕ) : ℝ) /
          ((1000 : ℕ) : ℝ)) / Real.log 4⌉ ∧
      IsLeast {s : ℕ | 2000 * 2000 ≤ 1000 * 4 ^ s}
        (get_scale_from_max_pixels 2000 2000 1000).toNat ∧
      get_scale_from_max_pixels 2000 2000 1000 = 6 ∧
      (2000 * 2000 ≤ 1000 →
        get_scale_from_max_pixels 2000 2000 1000 = 0)) :=
  ⟨by norm_num, c7_scale_from_max_pixels 2000 2000 1000 (by norm_num)⟩

/-- C8: in the batch loop, the external reconstructor is not invoked for a
view id exactly when the id is out of the catalog's range, the view is
missing or lacks a valid camera pose, or the embedding named
`"depth-L" + decimal(scale)` already exists while the force flag is unset;
with the force flag set the job runs whenever the view exists and has a
valid camera pose, regardless of existing embeddings. -/
theorem c8_skip_policy (views : List (Option MView)) (force : Bool)
    (scale : ℤ) (id : ℕ) :
    (jobRuns views force scale id = false ↔
      views.length ≤ id ∨ views[id]? = some none ∨
      (∃ v, views[id]? = some (some v) ∧
        (v.camera_valid = false ∨
          (force = false ∧
            viewHasEmbedding v ("depth-L" ++ toString scale) = true)))) ∧
    (jobRuns views true scale id = true ↔
      ∃ v, views[id]? = some (some v) ∧ v.camera_valid = true) := by
  rcases hv : views[id]? with _ | ov
  · have h1 : views.length ≤ id := List.getElem?_eq_none_iff.mp hv
    constructor
    · simp [jobRuns, hv, h1]
    · simp [jobRuns, hv]
  · have h2 : id < views.length := by
      by_contra hcon
      rw [List.getElem?_eq_none (by omega)] at hv
      cases hv
    have h2' : ¬ views.length ≤ id := by omega
    rcases ov with _ | v
    · constructor
      · simp [jobRuns, hv]
      · simp [jobRuns, hv]
    · cases hcv : v.camera_valid
      · constructor
        · simp [jobRuns, hv, hcv, h2', embeddingName]
        · simp [jobRuns, hv, hcv]
      · cases force
        · cases hemb : viewHasEmbedding v (embeddingName scale)
          · constructor
            · simp [jobRuns, hv, hcv, hemb, h2', embeddingName]
            · simp [jobRuns, hv, hcv, hemb, embeddingName]
          · constructor
            · simp [jobRuns, hv, hcv, hemb, h2', embeddingName]
            · simp [jobRuns, hv, hcv, hemb, embeddingName]
        · constructor
          · simp [jobRuns, hv, hcv, h2', embeddingName]
          · simp [jobRuns, hv, hcv]

/-- C9: injecting a failure into the external reconstruction at one view
id leaves batch mode total — the outcome list still covers every job, jobs
with other ids are unaffected, and the failing job (when it runs) is
recorded `FAILED` rather than aborting the batch — while in single-master
mode the same failure aborts the run with exit status 1. -/
theorem c9_failure_isolation (views : List (Option MView)) (force : Bool)
    (scale : ℤ) (recon : ℕ → Except String Unit) (jobs : List ℕ)
    (j : ℕ) (e : String) :
    (batchRun views force scale (failAt recon j e) jobs).length =
      jobs.length ∧
    (∀ id ∈ jobs, id ≠ j →
      runJob views force scale (failAt recon j e) id =
        runJob views force scale recon id) ∧
    (j ∈ jobs → jobRuns views force scale j = true →
      runJob views force scale (failAt recon j e) j = Outcome.failed) ∧
    masterRun (failAt recon j e) j = 1 := by
  refine ⟨by simp [batchRun], ?_, ?_, ?_⟩
  · intro id _ hne
    unfold runJob failAt
    rw [if_neg hne]
  · intro _ hr
    unfold runJob failAt
    rw [if_pos hr, if_pos rfl]
  · unfold masterRun failAt
    simp

theorem c9_failure_isolation_witness :
    ((batchRun [some (MView.mk true []), some (MView.mk true [])] false 0
        (failAt (fun _ => Except.ok ()) 0 "fail") [0, 1]).length = 2 ∧
     runJob [some (MView.mk true []), some (MView.mk true [])] false 0
        (failAt (fun _ => Except.ok ()) 0 "fail") 1 =
       runJob [some (MView.mk true []), some (MView.mk true [])] false 0
        (fun _ => Except.ok ()) 1 ∧
     runJob [some (MView.mk true []), some (MView.mk true [])] false 0
        (failAt (fun _ => Except.ok ()) 0 "fail") 0 = Outcome.failed ∧
     masterRun (failAt (fun _ => Except.ok ()) 0 "fail") 0 = 1) :=
  ⟨(c9_failure_isolation [some (MView.mk true []), some (MView.mk true [])]
      false 0 (fun _ => Except.ok ()) [0, 1] 0 "fail").1,
   (c9_failure_isolation [some (MView.mk true []), some (MView.mk true [])]
      false 0 (fun _ => Except.ok ()) [0, 1] 0 "fail").2.1 1 (by decide)
      (by decide),
   (c9_failure_isolation [some (MView.mk true []), some (MView.mk true [])]
      false 0 (fun _ => Except.ok ()) [0, 1] 0 "fail").2.2.1 (by decide)
      (by decide),
   (c9_failure_isolation [some (MView.mk true []), some (MView.mk true [])]
      false 0 (fun _ => Except.ok ()) [0, 1] 0 "fail").2.2.2⟩
